import Mathlib

/- Verification development for the taxi-trip ingestion-and-cleaning pipeline
   (source files load.py and clean.py).

   The storage engine tables are modelled as Lean lists of rows; each SQL
   statement of the pipeline is embedded as a pure function on such lists.
   SQL WHERE clauses over nullable columns follow the SQL three-valued
   logic: a DELETE removes exactly the rows on which the clause evaluates
   to TRUE, and a COUNT with a WHERE clause counts exactly those rows.
   All definitions in the first half of the file; theorems follow. -/

namespace CleanStage

/-- SQL three-valued truth values (TRUE, FALSE, UNKNOWN/NULL). -/
inductive TV where
  | tt
  | ff
  | uu
deriving DecidableEq

/-- Inject a two-valued comparison result into the three-valued logic. -/
def TV.ofBool : Bool → TV
  | true => .tt
  | false => .ff

/-- SQL AND: FALSE dominates, otherwise UNKNOWN is contagious. -/
def TV.and : TV → TV → TV
  | .ff, _ => .ff
  | _, .ff => .ff
  | .tt, .tt => .tt
  | _, _ => .uu

/-- SQL NOT: UNKNOWN stays UNKNOWN. -/
def TV.not : TV → TV
  | .tt => .ff
  | .ff => .tt
  | .uu => .uu

/-- A WHERE clause selects a row exactly when it evaluates to TRUE. -/
def TV.toBool : TV → Bool
  | .tt => true
  | _ => false

/-- A TIMESTAMP value: `year` is what EXTRACT(YEAR FROM ...) returns, `abs`
    is the position on the absolute time line in seconds, used by the
    comparisons and the subtraction of clean.py. -/
structure Ts where
  year : Int
  abs : Int
deriving DecidableEq

/-- One row of a raw trip table as clean.py reads it: the four columns the
    six predicates consult, each nullable as in the stored schema. -/
structure TripRow where
  pickup : Option Ts
  dropoff : Option Ts
  passenger_count : Option Int
  trip_distance : Option Rat
deriving DecidableEq

/-- SQL comparison of two nullable operands: a NULL operand gives UNKNOWN. -/
def optCmp {a : Type} (r : a → a → Bool) : Option a → Option a → TV
  | some x, some y => TV.ofBool (r x y)
  | _, _ => .uu

/-- Inclusive year bound YEAR_MIN of clean.py. -/
def yearMin : Int := 2015

/-- Inclusive year bound YEAR_MAX of clean.py. -/
def yearMax : Int := 2024

/-- EXTRACT(YEAR FROM c) BETWEEN 2015 AND 2024 over a nullable timestamp. -/
def yearBetween (o : Option Ts) : TV :=
  match o with
  | none => .uu
  | some t => TV.ofBool (decide (yearMin ≤ t.year) && decide (t.year ≤ yearMax))

/-- Step 1 of clean_one: WHERE NOT (pickup year in range AND dropoff year
    in range). -/
def badYears (r : TripRow) : Bool :=
  (TV.not ((yearBetween r.pickup).and (yearBetween r.dropoff))).toBool

/-- Step 2 of clean_one: WHERE COALESCE(passenger_count, 0) = 0. -/
def zeroPax (r : TripRow) : Bool :=
  r.passenger_count.getD 0 == 0

/-- Step 3 of clean_one: WHERE trip_distance <= 0. -/
def distLeZero (r : TripRow) : Bool :=
  (optCmp (fun x y => decide (x ≤ y)) r.trip_distance (some 0)).toBool

/-- Step 4 of clean_one: WHERE trip_distance > 100. -/
def distGt100 (r : TripRow) : Bool :=
  (optCmp (fun x y => decide (y < x)) r.trip_distance (some 100)).toBool

/-- Step 5 of clean_one: WHERE dropoff < pickup. -/
def negDuration (r : TripRow) : Bool :=
  (optCmp (fun x y => decide (x < y)) (r.dropoff.map Ts.abs) (r.pickup.map Ts.abs)).toBool

/-- INTERVAL 1 DAY in seconds. -/
def daySeconds : Int := 86400

/-- Step 6 of clean_one: WHERE (dropoff - pickup) > INTERVAL 1 DAY; the
    subtraction with a NULL operand is NULL, hence UNKNOWN. -/
def over24h (r : TripRow) : Bool :=
  (match r.dropoff, r.pickup with
   | some b, some p => TV.ofBool (decide (daySeconds < b.abs - p.abs))
   | _, _ => TV.uu).toBool

/-- DELETE FROM t WHERE p: keep exactly the rows the clause does not select. -/
def deleteWhere (p : TripRow → Bool) (t : List TripRow) : List TripRow :=
  t.filter (fun r => !(p r))

/-- SELECT COUNT(*) FROM t WHERE p. -/
def countWhere (p : TripRow → Bool) (t : List TripRow) : Nat :=
  t.countP p

/-- clean_one of clean.py: a working copy of the source table followed by
    the six DELETE steps in the implemented order (the per-step counts,
    log lines and checkpoints do not change the table content). -/
def cleanOne (src : List TripRow) : List TripRow :=
  let t1 := deleteWhere badYears src
  let t2 := deleteWhere zeroPax t1
  let t3 := deleteWhere distLeZero t2
  let t4 := deleteWhere distGt100 t3
  let t5 := deleteWhere negDuration t4
  deleteWhere over24h t5

/-- The six exclusion predicates in the order clean_one applies them. -/
def cleanPreds : List (TripRow → Bool) :=
  [badYears, zeroPax, distLeZero, distGt100, negDuration, over24h]

/-- Apply a list of exclusion predicates as successive DELETE steps. -/
def foldDeletes (ps : List (TripRow → Bool)) (t : List TripRow) : List TripRow :=
  ps.foldl (fun acc p => deleteWhere p acc) t

/-- verify_one of clean.py: the six checks, each a COUNT of rows selected
    by the same WHERE clause as the corresponding DELETE of clean_one, in
    the order verify_one lists them. -/
def verifyChecks (t : List TripRow) : List (String × Nat) :=
  [("passenger_count = 0", countWhere zeroPax t),
   ("trip_distance <= 0", countWhere distLeZero t),
   ("trip_distance > 100", countWhere distGt100 t),
   ("negative duration", countWhere negDuration t),
   ("duration > 24h", countWhere over24h t),
   ("year outside bounds", countWhere badYears t)]

/-- The aggregate verdict of verify_one: CLEAN PASSED exactly when every
    check reports zero violating rows. -/
def verifyPass (t : List TripRow) : Bool :=
  (verifyChecks t).all (fun c => c.2 == 0)

/-- A row with passenger_count = -1 and otherwise valid fields: the step 2
    clause COALESCE(passenger_count, 0) = 0 does not select it. -/
def negPaxRow : TripRow :=
  { pickup := some ⟨2020, 0⟩, dropoff := some ⟨2020, 3600⟩,
    passenger_count := some (-1), trip_distance := some 1 }

/-- A fully valid row, used as a concrete instance by witnesses. -/
def okRow : TripRow :=
  { pickup := some ⟨2020, 0⟩, dropoff := some ⟨2020, 3600⟩,
    passenger_count := some 2, trip_distance := some 5 }

/-- A small table exercising several predicates, used by witnesses. -/
def demoTable : List TripRow :=
  [okRow, negPaxRow,
   { pickup := some ⟨2013, 0⟩, dropoff := some ⟨2013, 60⟩,
     passenger_count := some 1, trip_distance := some 2 },
   { pickup := some ⟨2020, 100⟩, dropoff := some ⟨2020, 160⟩,
     passenger_count := none, trip_distance := some 150 },
   { pickup := some ⟨2020, 500⟩, dropoff := some ⟨2020, 400⟩,
     passenger_count := some 3, trip_distance := none }]

end CleanStage

namespace LoadStage

/-- A pickup TIMESTAMP, at the granularity the load stage consults it:
    `absMonth` counts calendar months on the absolute time line (year
    times twelve plus the zero-based month), `off` is the position inside
    that month. The ordering on timestamps is lexicographic, so the DATE
    comparisons of the idempotency DELETE are faithful. -/
structure PickTs where
  absMonth : Nat
  off : Nat
deriving DecidableEq

/-- Timestamp comparison pickup >= bound (lexicographic). -/
def tsLe (x y : PickTs) : Bool :=
  decide (x.absMonth < y.absMonth) || (x.absMonth == y.absMonth && decide (x.off ≤ y.off))

/-- Timestamp comparison pickup < bound (lexicographic). -/
def tsLt (x y : PickTs) : Bool :=
  decide (x.absMonth < y.absMonth) || (x.absMonth == y.absMonth && decide (x.off < y.off))

/-- One (year, month) ingestion period of the YEARS x MONTHS enumeration. -/
structure Period where
  year : Nat
  month : Nat
deriving DecidableEq

/-- The calendar month index of the first day of a period. -/
def periodAbs (p : Period) : Nat := p.year * 12 + (p.month - 1)

/-- DATE month_start of a period month index (midnight of the first day). -/
def monthStart (n : Nat) : PickTs := ⟨n, 0⟩

/-- A month value a real enumeration produces (01 to 12). -/
def validMonth (p : Period) : Bool := decide (1 ≤ p.month) && decide (p.month ≤ 12)

/-- One row of a raw table as the load stage consults it: the pickup
    timestamp column (nullable) plus the remaining projected columns,
    abstracted into an opaque payload. -/
structure RawRow where
  pickup : Option PickTs
  payload : Nat
deriving DecidableEq

/-- The WHERE clause of the idempotency DELETE of _insert_rate_limited:
    pickup >= DATE month_start AND pickup < month_start + INTERVAL 1
    MONTH. A NULL pickup makes the clause UNKNOWN, so the row is not
    selected. -/
def inMonthRange (p : Period) (r : RawRow) : Bool :=
  match r.pickup with
  | none => false
  | some ts => tsLe (monthStart (periodAbs p)) ts && tsLt ts (monthStart (periodAbs p + 1))

/-- The DELETE statement: remove the rows of the period month. -/
def deleteMonth (t : List RawRow) (p : Period) : List RawRow :=
  t.filter (fun r => !(inMonthRange p r))

/-- One successful period iteration of _insert_rate_limited: DELETE the
    month rows, then INSERT every row of the period source file. -/
def stepPeriod (files : Period → List RawRow) (t : List RawRow) (p : Period) : List RawRow :=
  deleteMonth t p ++ files p

/-- The sequential Ingestor over a period range with fixed source files
    and no failures: fold the per-period step chronologically. -/
def runRange (files : Period → List RawRow) (ps : List Period) (t : List RawRow) : List RawRow :=
  ps.foldl (stepPeriod files) t

/-- A row is kept by every period month DELETE of a range. -/
def keepAll (ps : List Period) (r : RawRow) : Bool :=
  ps.all (fun p => !(inMonthRange p r))

/-- A row whose pickup lies in no enumerated month (absolute month 0). -/
def strayRow : RawRow := ⟨some ⟨0, 0⟩, 0⟩

/-- The period 2015-01. -/
def periodJan2015 : Period := ⟨2015, 1⟩

/-- A fixed remote source whose file holds one out-of-month row. -/
def strayFiles : Period → List RawRow := fun _ => [strayRow]

/-- A fixed remote source whose files each hold one row with the pickup
    inside that period month. -/
def goodFiles : Period → List RawRow := fun p => [⟨some ⟨periodAbs p, 5⟩, p.month⟩]

/-- A two-period range used by witnesses. -/
def demoPeriods : List Period := [⟨2015, 1⟩, ⟨2015, 2⟩]

/-- Where a period iteration of the try block of _insert_rate_limited
    fails, if at all. Each con.execute statement commits on its own (no
    surrounding transaction), so a failure leaves the statements already
    executed in effect. -/
inductive AttemptOutcome where
  | describeFail
  | insertFail
  | ok
deriving DecidableEq

/-- One period iteration with its failure point: if the DESCRIBE used to
    build the projection raises, nothing has been executed yet; if the
    INSERT raises, the DELETE has already committed; otherwise the full
    delete-then-insert ran. -/
def stepAttempt (files : Period → List RawRow) (t : List RawRow) (p : Period) :
    AttemptOutcome → List RawRow
  | .describeFail => t
  | .insertFail => deleteMonth t p
  | .ok => stepPeriod files t p

/-- A row whose pickup lies inside the month of period 2015-01. -/
def monthRow : RawRow := ⟨some ⟨periodAbs periodJan2015, 0⟩, 7⟩

/-- The resume gate of _insert_rate_limited: period strictly before the
    cutoff, by the comparison (yyyy < ry) or (yyyy = ry and mm < rm). -/
def periodBefore (p c : Period) : Bool :=
  decide (p.year < c.year) || (p.year == c.year && decide (p.month < c.month))

/-- One period iteration under a configured resume cutoff: a period
    strictly before the cutoff is skipped without touching the table. -/
def resumeStep (cutoff : Period) (files : Period → List RawRow)
    (t : List RawRow) (p : Period) : List RawRow :=
  if periodBefore p cutoff then t else stepPeriod files t p

/-- The sequential Ingestor with a configured resume cutoff. -/
def runResume (cutoff : Period) (files : Period → List RawRow)
    (ps : List Period) (t : List RawRow) : List RawRow :=
  ps.foldl (resumeStep cutoff files) t

/-- The cutoff 2020-01 of the resume-correctness scenario. -/
def cut2020 : Period := ⟨2020, 1⟩

/-- A pre-existing row of month 2019-06, before the cutoff. -/
def oldRow : RawRow := ⟨some ⟨periodAbs ⟨2019, 6⟩, 30⟩, 3⟩

/-- A range straddling the cutoff. -/
def resumePeriods : List Period := [⟨2019, 12⟩, ⟨2020, 1⟩, ⟨2020, 2⟩]

/-- Per-period attempt behaviour for the run-level control flow:
    `ensureOk` is whether _ensure_table_schema would succeed if executed,
    `insertOk` whether the projection build, DELETE and INSERT would all
    succeed. -/
structure Att where
  ensureOk : Bool
  insertOk : Bool

/-- The run-level state of _insert_rate_limited: the created flag, the
    skipped list, and how many periods were successfully inserted. -/
structure LoadState where
  created : Bool
  skipped : List Period
  succ : Nat
deriving DecidableEq

/-- One period iteration of the run-level control flow: the schema step
    runs only while the created flag is unset, and the flag is set as soon
    as that step succeeds, even if the insert that follows fails; any
    failure appends the period to the skipped list and continues. -/
def stepLoad (att : Period → Att) (st : LoadState) (p : Period) : LoadState :=
  if st.created then
    if (att p).insertOk then { st with succ := st.succ + 1 }
    else { st with skipped := st.skipped ++ [p] }
  else
    if (att p).ensureOk then
      if (att p).insertOk then { created := true, skipped := st.skipped, succ := st.succ + 1 }
      else { created := true, skipped := st.skipped ++ [p], succ := st.succ }
    else { st with skipped := st.skipped ++ [p] }

/-- Fold the run-level step from a given state. -/
def runLoadFrom (att : Period → Att) (st : LoadState) (ps : List Period) : LoadState :=
  ps.foldl (stepLoad att) st

/-- A complete run of _insert_rate_limited over a period range (no stop
    signal), starting from no table. -/
def runLoad (ps : List Period) (att : Period → Att) : LoadState :=
  runLoadFrom att ⟨false, [], 0⟩ ps

/-- The fatal-error condition at the end of the run: RuntimeError is
    raised exactly when the created flag was never set. -/
def loadFatal (ps : List Period) (att : Period → Att) : Bool :=
  !(runLoad ps att).created

/-- An attempt behaviour where the schema step succeeds and every insert
    fails. -/
def attEnsureOnly : Period → Att := fun _ => ⟨true, false⟩

/-- An attempt behaviour where every period fully succeeds. -/
def attAllOk : Period → Att := fun _ => ⟨true, true⟩

/-- Where a run of main (load.py or clean.py) fails, if at all: during the
    connect call itself, during the configuration statements _connect runs
    on the freshly opened connection, in the body after _connect returned,
    or nowhere. -/
inductive MainFail where
  | connectOpen
  | connectConfig
  | body
  | success
deriving DecidableEq

/-- What a run of main left behind: whether a connection object was
    opened, whether the main-level variable was assigned, and whether the
    finally block closed the connection. -/
structure ExecTrace where
  opened : Bool
  assigned : Bool
  closed : Bool
deriving DecidableEq

/-- main of load.py and clean.py: con = None, then try con = _connect()
    and the body, finally close con when it is not None. The assignment
    completes only when _connect returns, so a failure inside _connect
    after the open leaves the main-level variable unassigned and the
    finally block closes nothing. -/
def runMain (f : MainFail) : ExecTrace :=
  let opened := f != MainFail.connectOpen
  let assigned := opened && f != MainFail.connectConfig
  { opened := opened, assigned := assigned, closed := assigned }

/-- One entry of the SELECT list _build_projection_for_file returns:
    either pass the source column through, or CAST(NULL AS type) AS col. -/
inductive ProjEntry where
  | passCol (c : String)
  | nullCast (c : String) (ty : String)
deriving DecidableEq

/-- The target column an entry produces. -/
def ProjEntry.col : ProjEntry → String
  | .passCol c => c
  | .nullCast c _ => c

/-- _build_projection_for_file of load.py: one entry per keep column in
    keep order; a column present in the file is passed through, a missing
    one becomes a NULL cast to its declared type. -/
def buildProjectionForFile (fileCols : List String) (keepCols : List String)
    (typeMap : String → String) : List ProjEntry :=
  keepCols.map (fun c =>
    if c ∈ fileCols then ProjEntry.passCol c else ProjEntry.nullCast c (typeMap c))

/-- A column value of an inserted row: a typed NULL or a non-null payload. -/
inductive SqlVal where
  | nullOf (ty : String)
  | val (x : Int)
deriving DecidableEq

/-- Evaluate one projection entry against a source row (a source row is
    consulted only on the columns its file has). -/
def applyEntry (row : String → SqlVal) : ProjEntry → SqlVal
  | .passCol c => row c
  | .nullCast _ ty => SqlVal.nullOf ty

/-- The row the SELECT list produces for one source row. -/
def projectRow (proj : List ProjEntry) (row : String → SqlVal) : List (String × SqlVal) :=
  proj.map (fun e => (e.col, applyEntry row e))

/-- INSERT INTO table SELECT select_list FROM read_parquet(url): one
    output row per source row. -/
def insertRows (proj : List ProjEntry) (rows : List (String → SqlVal)) :
    List (List (String × SqlVal)) :=
  rows.map (projectRow proj)

/-- Python list prefix test at character level, for the substring checks. -/
def startsWithL : List Char → List Char → Bool
  | [], _ => true
  | _ :: _, [] => false
  | p :: ps, c :: cs => p == c && startsWithL ps cs

/-- Substring occurrence over character lists. -/
def containsSub (pat : List Char) : List Char → Bool
  | [] => startsWithL pat []
  | c :: cs => startsWithL pat (c :: cs) || containsSub pat cs

/-- The Python substring test pat in s. -/
def strContains (s pat : String) : Bool := containsSub pat.toList s.toList

/-- COMMON_KEEP_COLS of load.py. -/
def commonKeepCols : List String :=
  ["VendorID", "passenger_count", "trip_distance", "RatecodeID",
   "store_and_fwd_flag", "PULocationID", "DOLocationID", "payment_type",
   "fare_amount", "extra", "mta_tax", "tip_amount", "tolls_amount",
   "improvement_surcharge", "total_amount", "congestion_surcharge", "airport_fee"]

/-- TYPE_MAP_BASE of load.py as a function on the keep columns (the
    source dict is consulted only on keep columns; every base column not
    listed as INTEGER or VARCHAR there is DOUBLE). -/
def typeMapBase : String → String := fun c =>
  if c == "VendorID" then "INTEGER"
  else if c == "passenger_count" then "INTEGER"
  else if c == "trip_distance" then "DOUBLE"
  else if c == "RatecodeID" then "INTEGER"
  else if c == "store_and_fwd_flag" then "VARCHAR"
  else if c == "PULocationID" then "INTEGER"
  else if c == "DOLocationID" then "INTEGER"
  else if c == "payment_type" then "INTEGER"
  else "DOUBLE"

/-- _keep_cols_for of load.py: the timestamp pair by table name, then the
    common keep columns; also returns the pickup column. -/
def keepColsFor (table : String) : List String × String :=
  if strContains table "yellow" then
    (["tpep_pickup_datetime", "tpep_dropoff_datetime"] ++ commonKeepCols,
     "tpep_pickup_datetime")
  else
    (["lpep_pickup_datetime", "lpep_dropoff_datetime"] ++ commonKeepCols,
     "lpep_pickup_datetime")

/-- _type_map_for of load.py: the base map plus TIMESTAMP for the two
    timestamp columns of the table. -/
def typeMapFor (table : String) : String → String := fun c =>
  if strContains table "yellow" then
    if c == "tpep_pickup_datetime" || c == "tpep_dropoff_datetime" then "TIMESTAMP"
    else typeMapBase c
  else
    if c == "lpep_pickup_datetime" || c == "lpep_dropoff_datetime" then "TIMESTAMP"
    else typeMapBase c

/-- The column set of a 2015 yellow source file: the keep columns except
    congestion_surcharge and airport_fee. -/
def yellow2015Cols : List String :=
  ["tpep_pickup_datetime", "tpep_dropoff_datetime", "VendorID", "passenger_count",
   "trip_distance", "RatecodeID", "store_and_fwd_flag", "PULocationID",
   "DOLocationID", "payment_type", "fare_amount", "extra", "mta_tax",
   "tip_amount", "tolls_amount", "improvement_surcharge", "total_amount"]

end LoadStage

namespace LookupLoader

/-- lower(s) at character level (String.toLower on the character list). -/
def lowerList (s : String) : List Char := s.toList.map Char.toLower

/-- lower(s) LIKE with a pattern bracketed by percent signs: substring
    occurrence in the lowercased value. -/
def likeLower (s pat : String) : Bool := LoadStage.containsSub pat.toList (lowerList s)

/-- One CSV row of data/vehicle_emissions.csv as the query reads it:
    the free-text vehicle_type and TRY_CAST(co2_grams_per_mile AS DOUBLE),
    which is NULL when the cell does not cast to a number. -/
structure EmissionRow where
  vehicle_type : String
  co2 : Option Rat

/-- The CASE expression of load_vehicle_emissions: yellow match first,
    then green, else NULL. -/
def classify (vt : String) : Option String :=
  if likeLower vt "yellow" then some "yellow"
  else if likeLower vt "green" then some "green"
  else none

/-- The contribution of one source row to the group of a taxi type: its
    cast value when the row classifies to that type and the cast
    succeeded, nothing otherwise (the WHERE clause of the query). -/
def contribVal (t : String) (r : EmissionRow) : Option Rat :=
  match classify r.vehicle_type, r.co2 with
  | some t2, some q => if t2 == t then some q else none
  | _, _ => none

/-- The values grouped under one taxi type. -/
def contribs (rows : List EmissionRow) (t : String) : List Rat :=
  rows.filterMap (contribVal t)

/-- SQL AVG over the non-null group values. -/
def avgList (l : List Rat) : Rat := l.sum / l.length

/-- load_vehicle_emissions of load.py: GROUP BY taxi_type with AVG,
    ORDER BY taxi_type; only the classes with at least one contributing
    row appear (classify yields only green and yellow, in that order). -/
def loadVehicleEmissions (rows : List EmissionRow) : List (String × Rat) :=
  ["green", "yellow"].filterMap (fun t =>
    if (contribs rows t).isEmpty then none else some (t, avgList (contribs rows t)))

/-- A row survives the WHERE clause: it classifies and its value casts. -/
def contributing (r : EmissionRow) : Bool :=
  (classify r.vehicle_type).isSome && r.co2.isSome

end LookupLoader

namespace CleanStage

/-- A row that survives clean_one satisfies none of the six WHERE clauses. -/
theorem cleanOne_preds_false (t : List TripRow) (r : TripRow) (h : r ∈ cleanOne t) :
    badYears r = false ∧ zeroPax r = false ∧ distLeZero r = false ∧
    distGt100 r = false ∧ negDuration r = false ∧ over24h r = false := by
  simp only [cleanOne, deleteWhere, List.mem_filter, Bool.not_eq_true'] at h
  exact ⟨h.1.1.1.1.1.2, h.1.1.1.1.2, h.1.1.1.2, h.1.1.2, h.1.2, h.2⟩

/-- C5 counterexample: the row with passenger_count = -1 survives clean_one,
    yet its (coalesced) passenger count is not strictly greater than zero,
    so not every remaining row has a passenger count strictly greater than
    zero. -/
theorem cleanOne_keeps_negative_pax :
    negPaxRow ∈ cleanOne [negPaxRow] ∧ ¬(0 < negPaxRow.passenger_count.getD 0) := by
  decide

/-- C5 amended: after clean_one completes, every remaining row has a
    coalesced passenger count different from zero — rows whose passenger
    count is NULL or zero are excluded, while strictly negative passenger
    counts are not excluded. -/
theorem cleanOne_pax_nonzero (t : List TripRow) (r : TripRow) (h : r ∈ cleanOne t) :
    r.passenger_count.getD 0 ≠ 0 := by
  have h2 := (cleanOne_preds_false t r h).2.1
  simpa [zeroPax] using h2

theorem cleanOne_pax_nonzero_witness :
    okRow ∈ cleanOne [okRow] ∧ okRow.passenger_count.getD 0 ≠ 0 :=
  ⟨by decide, cleanOne_pax_nonzero [okRow] okRow (by decide)⟩

/-- Two successive DELETE steps commute. -/
theorem deleteWhere_comm (p q : TripRow → Bool) (t : List TripRow) :
    deleteWhere p (deleteWhere q t) = deleteWhere q (deleteWhere p t) := by
  simp only [deleteWhere, List.filter_filter]
  exact List.filter_congr (fun a _ => Bool.and_comm _ _)

/-- Permuting a sequence of DELETE steps does not change the result. -/
theorem foldDeletes_perm {ps qs : List (TripRow → Bool)} (h : ps.Perm qs) :
    ∀ t, foldDeletes ps t = foldDeletes qs t := by
  induction h with
  | nil => intro t; rfl
  | cons x _ ih => intro t; simpa [foldDeletes] using ih (deleteWhere x t)
  | swap x y l =>
      intro t
      simp only [foldDeletes, List.foldl_cons]
      rw [deleteWhere_comm]
  | trans _ _ ih1 ih2 => intro t; rw [ih1, ih2]

/-- C6: applying the six row-exclusion predicates of clean_one as deletion
    steps in any order yields the same final row list as the implemented
    order. -/
theorem cleanOne_order_invariant (t : List TripRow) (ps : List (TripRow → Bool))
    (h : ps.Perm cleanPreds) : foldDeletes ps t = cleanOne t :=
  foldDeletes_perm h t

theorem cleanOne_order_invariant_witness :
    foldDeletes [zeroPax, badYears, distLeZero, distGt100, negDuration, over24h]
      demoTable = cleanOne demoTable :=
  cleanOne_order_invariant demoTable _
    (List.Perm.swap badYears zeroPax [distLeZero, distGt100, negDuration, over24h])

/-- C8: running verify_one on the table clean_one just produced reports a
    zero violation count for every one of the six checks; the aggregate
    verdict is CLEAN PASSED. -/
theorem verifyPass_after_cleanOne (src : List TripRow) :
    verifyPass (cleanOne src) = true := by
  have hz : ∀ p ∈ cleanPreds, (cleanOne src).countP p = 0 := by
    intro p hp
    rw [List.countP_eq_zero]
    intro r hr
    have h6 := cleanOne_preds_false src r hr
    simp only [cleanPreds, List.mem_cons, List.not_mem_nil, or_false] at hp
    rcases hp with h | h | h | h | h | h <;> subst h <;> simp [h6.1, h6.2.1,
      h6.2.2.1, h6.2.2.2.1, h6.2.2.2.2.1, h6.2.2.2.2.2]
  simp only [verifyPass, verifyChecks, countWhere, List.all_cons, List.all_nil,
    Bool.and_true, Bool.and_eq_true, beq_iff_eq]
  refine ⟨?_, ?_, ?_, ?_, ?_, ?_⟩ <;>
    apply hz <;> simp [cleanPreds]

end CleanStage

namespace LoadStage

/-- The idempotency DELETE clause selects exactly the rows whose pickup
    month equals the period month. -/
theorem inMonthRange_iff (p : Period) (r : RawRow) :
    inMonthRange p r = true ↔ r.pickup.map PickTs.absMonth = some (periodAbs p) := by
  cases h : r.pickup with
  | none => simp [inMonthRange, h]
  | some ts =>
      simp only [inMonthRange, h, tsLe, tsLt, monthStart, Option.map_some',
        Option.some_inj, Bool.and_eq_true, Bool.or_eq_true, decide_eq_true_eq,
        beq_iff_eq]
      omega

/-- Normal form of a failure-free sequential run: the rows of the initial
    table in no processed month, followed by the source files in range
    order, provided the period months are pairwise distinct and every file
    row lies in its own period month. -/
theorem runRange_normal (files : Period → List RawRow) (ps : List Period)
    (hnd : (ps.map periodAbs).Nodup)
    (hcont : ∀ p ∈ ps, ∀ r ∈ files p, r.pickup.map PickTs.absMonth = some (periodAbs p)) :
    ∀ t, runRange files ps t = t.filter (keepAll ps) ++ (ps.map files).flatten := by
  induction ps with
  | nil =>
      intro t
      have hid : t.filter (keepAll []) = t :=
        List.filter_eq_self.2 (fun r _ => by simp [keepAll])
      simp [runRange, hid]
  | cons p ps ih =>
      intro t
      have hnd2 : (periodAbs p :: ps.map periodAbs).Nodup := by simpa using hnd
      have hnotmem : periodAbs p ∉ ps.map periodAbs := (List.nodup_cons.1 hnd2).1
      have hnd' : (ps.map periodAbs).Nodup := (List.nodup_cons.1 hnd2).2
      have hcont' : ∀ q ∈ ps, ∀ r ∈ files q, r.pickup.map PickTs.absMonth = some (periodAbs q) :=
        fun q hq => hcont q (List.mem_cons_of_mem p hq)
      have hstep : runRange files (p :: ps) t = runRange files ps (stepPeriod files t p) := rfl
      rw [hstep, ih hnd' hcont']
      have hfp : (files p).filter (keepAll ps) = files p := by
        apply List.filter_eq_self.2
        intro r hr
        simp only [keepAll, List.all_eq_true, Bool.not_eq_true']
        intro q hq
        rw [Bool.eq_false_iff]
        intro hins
        have h1 := (inMonthRange_iff q r).1 hins
        have h2 := hcont p (List.mem_cons_self p ps) r hr
        have heq : periodAbs q = periodAbs p := by
          rw [h2] at h1; exact (Option.some_inj.1 h1).symm
        exact hnotmem (heq ▸ List.mem_map_of_mem periodAbs hq)
      have hcomb : (deleteMonth t p).filter (keepAll ps) = t.filter (keepAll (p :: ps)) := by
        simp only [deleteMonth, List.filter_filter]
        apply List.filter_congr
        intro r _
        simp [keepAll, Bool.and_comm]
      simp only [stepPeriod, List.filter_append, hfp, hcomb, List.map_cons,
        List.flatten_cons, List.append_assoc]

/-- Every row of the concatenated source files is removed again by the
    month DELETE of its own period. -/
theorem flatten_filter_nil (files : Period → List RawRow) (ps : List Period)
    (hcont : ∀ p ∈ ps, ∀ r ∈ files p, r.pickup.map PickTs.absMonth = some (periodAbs p)) :
    ((ps.map files).flatten).filter (keepAll ps) = [] := by
  apply List.filter_eq_nil_iff.2
  intro r hr
  simp only [List.mem_flatten, List.mem_map] at hr
  obtain ⟨l, ⟨p, hp, rfl⟩, hrl⟩ := hr
  simp only [keepAll, List.all_eq_true, Bool.not_eq_true', not_forall]
  refine ⟨p, hp, ?_⟩
  simp only [Bool.not_eq_false]
  exact (inMonthRange_iff p r).2 (hcont p hp r hrl)

/-- C1 counterexample: with the source file of 2015-01 holding one row
    whose pickup timestamp lies outside that month, running the sequential
    step over the one-period range twice yields a different table (the
    stray row is duplicated) than running it once, refuting the claim for
    arbitrary fixed source files. -/
theorem runRange_twice_ne_once :
    runRange strayFiles [periodJan2015] (runRange strayFiles [periodJan2015] []) ≠
      runRange strayFiles [periodJan2015] [] := by
  decide

/-- C1 amended: running the sequential per-period delete-then-insert step
    twice over the same range with the same fixed source files yields
    exactly the table of a single run, provided the range months are
    pairwise distinct and every source file row carries a pickup timestamp
    inside its own period month (pure replacement). -/
theorem runRange_idempotent (files : Period → List RawRow) (ps : List Period)
    (t : List RawRow) (hnd : (ps.map periodAbs).Nodup)
    (hcont : ∀ p ∈ ps, ∀ r ∈ files p, r.pickup.map PickTs.absMonth = some (periodAbs p)) :
    runRange files ps (runRange files ps t) = runRange files ps t := by
  rw [runRange_normal files ps hnd hcont t,
      runRange_normal files ps hnd hcont (t.filter (keepAll ps) ++ (ps.map files).flatten),
      List.filter_append, flatten_filter_nil files ps hcont, List.append_nil,
      List.filter_filter]
  congr 1
  apply List.filter_congr
  intro r _
  exact Bool.and_self _

theorem runRange_idempotent_witness :
    runRange goodFiles demoPeriods (runRange goodFiles demoPeriods []) =
      runRange goodFiles demoPeriods [] :=
  runRange_idempotent goodFiles demoPeriods [] (by decide) (by decide)

/-- C2 counterexample: when the INSERT of a period fails after the DELETE
    (separate auto-committed statements), the table holding one row of
    that month ends up neither replaced as a whole group nor unchanged —
    the month rows previously present are lost. -/
theorem stepAttempt_not_atomic :
    stepAttempt strayFiles [monthRow] periodJan2015 .insertFail ≠
        stepPeriod strayFiles [monthRow] periodJan2015 ∧
    stepAttempt strayFiles [monthRow] periodJan2015 .insertFail ≠ [monthRow] := by
  decide

/-- C2 amended: a period replacement is atomic only against failures that
    precede the DELETE (the schema inspection building the projection):
    there the table is unchanged. An INSERT failure after the DELETE
    leaves the table equal to the original minus that period month rows,
    so the month rows previously present are lost; rows of other months
    are preserved on every failure path. -/
theorem stepAttempt_frame (files : Period → List RawRow) (t : List RawRow) (p : Period) :
    stepAttempt files t p .describeFail = t ∧
    stepAttempt files t p .insertFail = deleteMonth t p ∧
    stepAttempt files t p .ok = stepPeriod files t p ∧
    (∀ o : AttemptOutcome, ∀ r ∈ t, inMonthRange p r = false →
      r ∈ stepAttempt files t p o) := by
  refine ⟨rfl, rfl, rfl, ?_⟩
  intro o r hr hm
  cases o with
  | describeFail => exact hr
  | insertFail =>
      simp only [stepAttempt, deleteMonth, List.mem_filter]
      exact ⟨hr, by simp [hm]⟩
  | ok =>
      simp only [stepAttempt, stepPeriod, List.mem_append, deleteMonth, List.mem_filter]
      exact Or.inl ⟨hr, by simp [hm]⟩

theorem stepAttempt_frame_witness :
    strayRow ∈ stepAttempt strayFiles [strayRow] periodJan2015 .insertFail :=
  (stepAttempt_frame strayFiles [strayRow] periodJan2015).2.2.2 .insertFail strayRow
    (by decide) (by decide)

/-- A period not before the cutoff has a month index at least the cutoff
    month index, when both carry real month values. -/
theorem abs_le_of_not_before (p c : Period) (hp : validMonth p = true)
    (hc : validMonth c = true) (h : periodBefore p c = false) :
    periodAbs c ≤ periodAbs p := by
  simp only [validMonth, Bool.and_eq_true, decide_eq_true_eq] at hp hc
  simp only [periodBefore, Bool.or_eq_false_iff, Bool.and_eq_false_iff,
    decide_eq_false_iff_not, beq_eq_false_iff_ne, Nat.not_lt] at h
  unfold periodAbs
  rcases h with ⟨h1, h2⟩
  rcases h2 with h2 | h2 <;> omega

/-- A resumed run equals the failure-free run over the periods at or after
    the cutoff. -/
theorem runResume_eq_filter (cutoff : Period) (files : Period → List RawRow)
    (ps : List Period) : ∀ t, runResume cutoff files ps t =
      runRange files (ps.filter (fun p => !(periodBefore p cutoff))) t := by
  induction ps with
  | nil => intro t; rfl
  | cons p ps ih =>
      intro t
      by_cases hb : periodBefore p cutoff
      · have hskip : runResume cutoff files (p :: ps) t = runResume cutoff files ps t := by
          simp [runResume, resumeStep, hb]
        rw [hskip, ih]
        simp [hb]
      · have hrun : runResume cutoff files (p :: ps) t =
            runResume cutoff files ps (stepPeriod files t p) := by
          simp [runResume, resumeStep, hb]
        rw [hrun, ih]
        simp only [hb, List.filter_cons]
        rfl

/-- A pre-existing row of a month strictly before the cutoff survives the
    whole resumed run: no processed period month can touch it. -/
theorem runResume_untouched (cutoff : Period) (files : Period → List RawRow)
    (ps : List Period) (hc : validMonth cutoff = true)
    (hps : ∀ p ∈ ps, validMonth p = true) :
    ∀ t, ∀ r ∈ t, ∀ ts : PickTs, r.pickup = some ts →
      ts.absMonth < periodAbs cutoff → r ∈ runResume cutoff files ps t := by
  induction ps with
  | nil => intro t r hr ts _ _; exact hr
  | cons p ps ih =>
      intro t r hr ts hts hlt
      have hps' : ∀ q ∈ ps, validMonth q = true :=
        fun q hq => hps q (List.mem_cons_of_mem p hq)
      by_cases hb : periodBefore p cutoff
      · have hskip : runResume cutoff files (p :: ps) t = runResume cutoff files ps t := by
          simp [runResume, resumeStep, hb]
        rw [hskip]
        exact ih hps' t r hr ts hts hlt
      · have hrun : runResume cutoff files (p :: ps) t =
            runResume cutoff files ps (stepPeriod files t p) := by
          simp [runResume, resumeStep, hb]
        rw [hrun]
        have hple : periodAbs cutoff ≤ periodAbs p :=
          abs_le_of_not_before p cutoff (hps p (List.mem_cons_self p ps)) hc
            (Bool.eq_false_iff.2 hb)
        have hnm : inMonthRange p r = false := by
          rw [Bool.eq_false_iff]
          intro hins
          have h1 := (inMonthRange_iff p r).1 hins
          rw [hts] at h1
          simp only [Option.map_some', Option.some_inj] at h1
          omega
        have hr' : r ∈ stepPeriod files t p := by
          simp only [stepPeriod, List.mem_append, deleteMonth, List.mem_filter]
          exact Or.inl ⟨hr, by simp [hnm]⟩
        exact ih hps' (stepPeriod files t p) r hr' ts hts hlt

/-- C7: under a configured resume cutoff, the run equals the plain
    sequential run over exactly the periods at or after the cutoff, and
    every pre-existing row of a month strictly before the cutoff is still
    present afterwards (periods before the cutoff are untouched). -/
theorem runResume_correct (cutoff : Period) (files : Period → List RawRow)
    (ps : List Period) (t : List RawRow) (hc : validMonth cutoff = true)
    (hps : ∀ p ∈ ps, validMonth p = true) :
    runResume cutoff files ps t =
      runRange files (ps.filter (fun p => !(periodBefore p cutoff))) t ∧
    (∀ r ∈ t, ∀ ts : PickTs, r.pickup = some ts → ts.absMonth < periodAbs cutoff →
      r ∈ runResume cutoff files ps t) :=
  ⟨runResume_eq_filter cutoff files ps t,
   fun r hr ts hts hlt => runResume_untouched cutoff files ps hc hps t r hr ts hts hlt⟩

theorem runResume_correct_witness :
    oldRow ∈ runResume cut2020 goodFiles resumePeriods [oldRow] :=
  (runResume_correct cut2020 goodFiles resumePeriods [oldRow] (by decide)
      (by decide)).2 oldRow (by decide) ⟨periodAbs ⟨2019, 6⟩, 30⟩ rfl (by decide)

/-- The created flag is never unset once set. -/
theorem created_mono (att : Period → Att) :
    ∀ ps : List Period, ∀ st : LoadState, st.created = true →
      (runLoadFrom att st ps).created = true := by
  intro ps
  induction ps with
  | nil => intro st h; exact h
  | cons p ps ih =>
      intro st h
      have hstep : (stepLoad att st p).created = true := by
        simp only [stepLoad, h, if_true]
        by_cases hi : (att p).insertOk <;> simp [hi]
      exact ih (stepLoad att st p) hstep

/-- While the created flag stays unset, no period increments the success
    count. -/
theorem succ_const_of_not_created (att : Period → Att) :
    ∀ ps : List Period, ∀ st : LoadState,
      (runLoadFrom att st ps).created = false →
      (runLoadFrom att st ps).succ = st.succ := by
  intro ps
  induction ps with
  | nil => intro st _; rfl
  | cons p ps ih =>
      intro st hfin
      have hst : st.created = false := by
        rw [Bool.eq_false_iff]
        intro hc
        have := created_mono att (p :: ps) st hc
        rw [this] at hfin
        exact absurd hfin (by simp)
      have hstep : (stepLoad att st p).created = false := by
        rw [Bool.eq_false_iff]
        intro hc
        have hfin' : (runLoadFrom att st (p :: ps)).created = true :=
          created_mono att ps (stepLoad att st p) hc
        rw [hfin'] at hfin
        exact absurd hfin (by simp)
      have hens : (att p).ensureOk = false := by
        rw [Bool.eq_false_iff]
        intro he
        have hcr : (stepLoad att st p).created = true := by
          simp only [stepLoad, hst, if_false, he, if_true]
          by_cases hi : (att p).insertOk <;> simp [hi]
        rw [hcr] at hstep
        exact absurd hstep (by simp)
      have hsucc : (stepLoad att st p).succ = st.succ := by
        simp [stepLoad, hst, hens]
      have hunf : runLoadFrom att st (p :: ps) = runLoadFrom att (stepLoad att st p) ps := rfl
      rw [hunf] at hfin ⊢
      rw [ih (stepLoad att st p) hfin, hsucc]

/-- C4 counterexample: over the one-period range where the schema step
    succeeds but the insert fails, zero periods ever succeeded and yet
    the run raises no fatal error (the created flag was set by the schema
    step alone). -/
theorem loadFatal_missing :
    (runLoad [periodJan2015] attEnsureOnly).succ = 0 ∧
      loadFatal [periodJan2015] attEnsureOnly = false := by
  decide

/-- C4 amended: the run raises the fatal RuntimeError exactly when the
    created flag was never set (the table could never be created), which
    is weaker than no period ever succeeding; in particular a run with at
    least one successful period insert never raises the fatal error. -/
theorem loadFatal_iff (ps : List Period) (att : Period → Att) :
    (loadFatal ps att = true ↔ (runLoad ps att).created = false) ∧
    (0 < (runLoad ps att).succ → loadFatal ps att = false) := by
  constructor
  · simp [loadFatal]
  · intro hs
    simp only [loadFatal, Bool.not_eq_false']
    by_contra hne
    have hcf : (runLoad ps att).created = false := Bool.eq_false_iff.2 hne
    have h0 : (runLoad ps att).succ = 0 :=
      succ_const_of_not_created att ps ⟨false, [], 0⟩ hcf
    omega

theorem loadFatal_iff_witness :
    loadFatal [periodJan2015] attAllOk = false :=
  (loadFatal_iff [periodJan2015] attAllOk).2 (by decide)

/-- C9 counterexample: on the exit path where a configuration statement of
    _connect fails after the connection was opened, a connection object
    exists and the finally block closes nothing — the claim that the
    connection is closed on every exit path fails. -/
theorem runMain_config_leak :
    (runMain .connectConfig).opened = true ∧ (runMain .connectConfig).closed = false := by
  decide

/-- C9 amended: the finally block closes the connection exactly on the
    exit paths where the main-level assignment completed; in particular
    every path on which _connect returned closes the connection, while a
    failure inside _connect after the open leaves it unclosed. -/
theorem runMain_close_iff (f : MainFail) :
    ((runMain f).closed = (runMain f).assigned) ∧
    ((runMain f).assigned = true → (runMain f).closed = true) := by
  cases f <;> exact ⟨rfl, fun h => h⟩

theorem runMain_close_iff_witness : (runMain .success).closed = true :=
  (runMain_close_iff .success).2 (by decide)

/-- C3: for a source file lacking at least one target column, the built
    projection has exactly one entry per target column in target order
    (its column list is the keep list itself), passing a column through
    when the file has it and emitting a NULL cast to the declared type
    otherwise; every inserted row carries exactly the target columns in
    target order, and the inserted row count equals the source row count. -/
theorem buildProjection_uniform (fileCols keepCols : List String)
    (typeMap : String → String) (rows : List (String → SqlVal))
    (hmiss : ∃ c ∈ keepCols, c ∉ fileCols) :
    ((buildProjectionForFile fileCols keepCols typeMap).map ProjEntry.col = keepCols) ∧
    (∀ c ∈ keepCols, c ∈ fileCols →
      ProjEntry.passCol c ∈ buildProjectionForFile fileCols keepCols typeMap) ∧
    (∀ c ∈ keepCols, c ∉ fileCols →
      ProjEntry.nullCast c (typeMap c) ∈ buildProjectionForFile fileCols keepCols typeMap) ∧
    (∀ row, (projectRow (buildProjectionForFile fileCols keepCols typeMap) row).map
      Prod.fst = keepCols) ∧
    ((insertRows (buildProjectionForFile fileCols keepCols typeMap) rows).length =
      rows.length) ∧
    (∀ row : String → SqlVal, ∀ c ∈ keepCols, c ∉ fileCols →
      (c, SqlVal.nullOf (typeMap c)) ∈
        projectRow (buildProjectionForFile fileCols keepCols typeMap) row) := by
  have hcols : (buildProjectionForFile fileCols keepCols typeMap).map ProjEntry.col
      = keepCols := by
    rw [buildProjectionForFile, List.map_map]
    have hfn : (ProjEntry.col ∘ fun c =>
        if c ∈ fileCols then ProjEntry.passCol c else ProjEntry.nullCast c (typeMap c))
        = fun c => c := by
      funext c
      by_cases h : c ∈ fileCols <;> simp [h, ProjEntry.col]
    rw [hfn, List.map_id']
  refine ⟨hcols, ?_, ?_, ?_, ?_, ?_⟩
  · intro c hc hf
    rw [buildProjectionForFile]
    exact List.mem_map.2 ⟨c, hc, by simp [hf]⟩
  · intro c hc hf
    rw [buildProjectionForFile]
    exact List.mem_map.2 ⟨c, hc, by simp [hf]⟩
  · intro row
    rw [projectRow, List.map_map]
    have hfst : (Prod.fst ∘ fun e => (ProjEntry.col e, applyEntry row e)) = ProjEntry.col := rfl
    rw [hfst, hcols]
  · simp [insertRows]
  · intro row c hc hf
    rw [projectRow]
    apply List.mem_map.2
    refine ⟨ProjEntry.nullCast c (typeMap c), ?_, by simp [ProjEntry.col, applyEntry]⟩
    rw [buildProjectionForFile]
    exact List.mem_map.2 ⟨c, hc, by simp [hf]⟩

theorem buildProjection_uniform_witness :
    (buildProjectionForFile yellow2015Cols (keepColsFor "raw_yellow_all").1
      (typeMapFor "raw_yellow_all")).map ProjEntry.col = (keepColsFor "raw_yellow_all").1 :=
  (buildProjection_uniform yellow2015Cols (keepColsFor "raw_yellow_all").1
    (typeMapFor "raw_yellow_all") []
    ⟨"congestion_surcharge", by decide, by decide⟩).1

end LoadStage

namespace LookupLoader

/-- A row that does not both classify and cast contributes no value. -/
theorem contribVal_none_of_not_contributing (t : String) (r : EmissionRow)
    (h : contributing r = false) : contribVal t r = none := by
  rcases hcl : classify r.vehicle_type with _ | c2 <;>
    rcases hco : r.co2 with _ | q <;> simp_all [contribVal, contributing]

/-- Dropping the non-contributing rows changes no group. -/
theorem contribs_filter (rows : List EmissionRow) (t : String) :
    contribs (rows.filter contributing) t = contribs rows t := by
  induction rows with
  | nil => rfl
  | cons r rows ih =>
      by_cases h : contributing r
      · rw [List.filter_cons_of_pos h]
        cases hfr : contribVal t r with
        | none =>
            simp only [contribs, List.filterMap_cons_none hfr] at ih ⊢
            exact ih
        | some q =>
            simp only [contribs, List.filterMap_cons_some hfr] at ih ⊢
            rw [ih]
      · rw [List.filter_cons_of_neg h]
        have hfr := contribVal_none_of_not_contributing t r (Bool.eq_false_iff.2 h)
        simp only [contribs, List.filterMap_cons_none hfr] at ih ⊢
        exact ih

/-- C10: a vehicle_type containing yellow (lowercased) classifies as
    yellow even when it also contains green (the CASE tries yellow
    first); rows that classify to neither class or whose value does not
    cast contribute nothing (the output is unchanged when they are
    dropped); the lookup table has at most one row per taxi type, and the
    value of each row is the average of the contributing values of its
    class. -/
theorem loadVehicleEmissions_spec (rows : List EmissionRow) :
    (∀ vt, likeLower vt "yellow" = true → classify vt = some "yellow") ∧
    (loadVehicleEmissions rows = loadVehicleEmissions (rows.filter contributing)) ∧
    ((loadVehicleEmissions rows).map Prod.fst).Nodup ∧
    (∀ t q, (t, q) ∈ loadVehicleEmissions rows → q = avgList (contribs rows t)) := by
  refine ⟨?_, ?_, ?_, ?_⟩
  · intro vt h
    simp [classify, h]
  · simp only [loadVehicleEmissions, contribs_filter]
  · by_cases h1 : contribs rows "green" = [] <;>
      by_cases h2 : contribs rows "yellow" = [] <;>
      simp [loadVehicleEmissions, List.filterMap_cons, h1, h2]
  · intro t q hm
    rw [loadVehicleEmissions] at hm
    rcases List.mem_filterMap.1 hm with ⟨a, _, hfa⟩
    by_cases he : (contribs rows a).isEmpty
    · rw [if_pos he] at hfa
      exact absurd hfa (by simp)
    · rw [if_neg he] at hfa
      have hp := Option.some.inj hfa
      have ha : a = t := congrArg Prod.fst hp
      have hq : avgList (contribs rows a) = q := congrArg Prod.snd hp
      rw [← ha]
      exact hq.symm

theorem classify_yellow_witness : classify "Yellow Cab" = some "yellow" :=
  (loadVehicleEmissions_spec []).1 "Yellow Cab" (by decide)

end LookupLoader
